import Mathlib

/-!
Verification of the MergeMasterXXL release-integration engine.

This file gives a shallow embedding, in Lean, of the pure logic of the
MergeMasterXXL sources: the version-tag model (`src/requests/tags.ts` and the
tag section of `src/requests/branches.ts`), the change-request identity codec
(`src/requests/prs.ts`), the integration-branch state codec and the rebuild
decider (the orchestrator sources), the merge-replay loop of the orchestrator,
the pipeline-polling loop (`wait_for_action`), the merged-change resolver
(`get_merged_prs`), and the release-scheduler location map of `src/tag_dev.ts`.

Conventions of the embedding:
* JavaScript numbers used as counters, PR numbers and tag components are
  modelled as `Nat`; timestamps are modelled as `Int` (milliseconds).
* Fallible operations are modelled with `Option`/`Except`.
* Third-party libraries (`lodash`, `yaml`, `sprintf-js`, `dependency-graph`,
  the JavaScript string/array primitives) are modelled at their documented
  interface, restricted to the behaviour the sources exercise; each such
  definition carries a comment naming the library operation it models.
* I/O results (git log output, hosting-API responses) are passed to the
  embedded functions as explicit arguments.
-/

namespace MMXXL

/-! ## JavaScript string primitives

The string methods of the sources (`endsWith`, `substring`, `trim`,
`startsWith`, `split`, `toLowerCase`) are modelled on the character list of
the string. -/

/-- The whitespace stripped by JavaScript `trim` on the inputs in play. -/
def isJsWs (c : Char) : Bool :=
  c = ' ' || c = '\t' || c = '\n' || c = '\r'

/-- JavaScript `s.endsWith(suf)`. -/
def strEndsWith (s suf : String) : Bool :=
  suf.data.isSuffixOf s.data

/-- JavaScript `s.startsWith(pre)`. -/
def strStartsWith (s p : String) : Bool :=
  p.data.isPrefixOf s.data

/-- JavaScript `s.substring(0, s.length - n)`. -/
def strDropRight (s : String) (n : Nat) : String :=
  (s.data.take (s.data.length - n)).asString

/-- JavaScript `s.substring(n)` / `s.slice(n)`. -/
def strDrop (s : String) (n : Nat) : String :=
  (s.data.drop n).asString

/-- JavaScript `s.trim()`. -/
def strTrim (s : String) : String :=
  ((s.data.dropWhile isJsWs).reverse.dropWhile isJsWs).reverse.asString

/-- `s.length == 0`. -/
def strIsEmpty (s : String) : Bool :=
  s.data.isEmpty

/-- ASCII lower-casing of one character (the labels in play are ASCII). -/
def charToLower (c : Char) : Char :=
  if 'A' ≤ c && c ≤ 'Z' then Char.ofNat (c.toNat + 32) else c

/-- JavaScript `s.toLowerCase()` on ASCII strings. -/
def strToLower (s : String) : String :=
  (s.data.map charToLower).asString

/-- Split on every occurrence of a separator character, keeping empty
fields, as JavaScript `split` with a single-character separator does. -/
def splitChGo (sep : Char) : List Char → List Char → List String
  | [], buf => [buf.reverse.asString]
  | c :: rest, buf =>
    if c = sep then buf.reverse.asString :: splitChGo sep rest []
    else splitChGo sep rest (c :: buf)

/-- JavaScript `s.split(sep)` for a one-character separator. -/
def strSplitCh (s : String) (sep : Char) : List String :=
  splitChGo sep s.data []

/-- Fuelled digit extraction for decimal rendering; the fuel never runs out
when it starts at the number itself. -/
def natToDigitsRevGo : Nat → Nat → List Char
  | 0, n => [Nat.digitChar n]
  | fuel + 1, n =>
    if n < 10 then [Nat.digitChar n]
    else Nat.digitChar (n % 10) :: natToDigitsRevGo fuel (n / 10)

/-- Decimal digits of `n`, least significant first; models the decimal
rendering used by JavaScript number-to-string conversion. -/
def natToDigitsRev (n : Nat) : List Char :=
  natToDigitsRevGo n n

/-- Decimal rendering of a natural number, as JavaScript renders an integral
`number` into a template literal. -/
def natToString (n : Nat) : String :=
  (natToDigitsRev n).reverse.asString

/-- The digit test of `isDigit` in the tag section of
`src/requests/branches.ts`: the character code lies between those of
`'0'` and `'9'`. -/
def jsIsDigit (c : Char) : Bool :=
  '0' ≤ c && c ≤ '9'

/-- Numeric value of a (non-empty) run of decimal digits; models
JavaScript `parseInt` applied to a string of digits. -/
def digitsToNat (ds : List Char) : Nat :=
  ds.foldl (fun a c => 10 * a + (c.toNat - 48)) 0

/-! ## Tag Model (`parse_tag`, `stringify_tag`, `increment_tag`)

Embedded from the tag section of `src/requests/branches.ts` (the
`src/requests/tags.ts` copy is textually identical for these three
functions). -/

/-- `ParsedTag` of the source: an alternating literal/`%d` format string and
the list of numeric components. -/
structure ParsedTag where
  format : String
  values : List Nat
deriving DecidableEq, Repr

/-- One flush step of the scanning loop of `parse_tag`: emit the pending run
either as a numeric component (plus a `%d` placeholder) or as literal text. -/
def flushRun (wasDigit : Bool) (run : List Char) (fmt : String) (vals : List Nat) :
    String × List Nat :=
  if wasDigit then (fmt ++ "%d", vals ++ [digitsToNat run])
  else (fmt ++ run.asString, vals)

/-- The scanning loop of `parse_tag`: `run` is the pending same-class run of
characters, `wasDigit` the class of that run (`none` before the first
character), `fmt`/`vals` the accumulated format and values. -/
def parseTagGo : List Char → List Char → Option Bool → String → List Nat → ParsedTag
  | [], run, wasDigit, fmt, vals =>
    if run.isEmpty then ⟨fmt, vals⟩
    else
      let (fmt2, vals2) := flushRun (wasDigit = some true) run fmt vals
      ⟨fmt2, vals2⟩
  | c :: rest, run, wasDigit, fmt, vals =>
    let d := jsIsDigit c
    if wasDigit = some d then parseTagGo rest (run ++ [c]) wasDigit fmt vals
    else
      let (fmt2, vals2) := flushRun (wasDigit = some true) run fmt vals
      parseTagGo rest [c] (some d) fmt2 vals2

/-- `parse_tag` of the source: split the tag into digit and non-digit runs,
recording digit runs as numeric values behind `%d` placeholders. -/
def parse_tag (tag : String) : ParsedTag :=
  parseTagGo tag.data [] none "" []

/-- The `%d` substitution of `sprintf` (from `sprintf-js`) as used by
`stringify_tag`: each `%d` consumes the next numeric value.  The sources only
ever build format strings by `parse_tag`, so the value list always matches the
placeholder count. -/
def sprintfD : List Char → List Nat → List Char
  | [], _ => []
  | '%' :: 'd' :: rest, v :: vs => (natToString v).data ++ sprintfD rest vs
  | '%' :: 'd' :: rest, [] => sprintfD rest []
  | c :: rest, vs => c :: sprintfD rest vs

/-- `stringify_tag` of the source: `sprintf(tag.format, ...tag.values)`. -/
def stringify_tag (tag : ParsedTag) : String :=
  (sprintfD tag.format.data tag.values).asString

/-- The pre-release literal `PRE` of the source. -/
def PRE : String := "-pre"

/-- The source's in-place strip of a trailing `-pre` from the format string
(first half of `increment_tag`). -/
def stripPre (f : String) : String :=
  if strEndsWith f PRE then strDropRight f 4 else f

/-- `increment_tag` of the source.  The source mutates its `ParsedTag`
argument (format suffix toggled, last value incremented) and returns the
stringified result; the embedding returns the pair of the mutated tag and the
returned string.  When `values` is empty the source's `values[-1]++` leaves
the array contents unchanged (it only creates a non-index property). -/
def increment_tag (tag : ParsedTag) (pre : Bool) : ParsedTag × String :=
  let f1 := stripPre tag.format
  let f2 := if pre then f1 ++ PRE else f1
  let vs :=
    match tag.values.getLast? with
    | none => tag.values
    | some v => tag.values.dropLast ++ [v + 1]
  (⟨f2, vs⟩, stringify_tag ⟨f2, vs⟩)

/-! ## ChangeRequest identity (`parse_pr`, `stringify_pr`)

Embedded from `src/requests/prs.ts`. -/

/-- `RepoInfo` of `src/requests/repos.ts`: an owner/name pair. -/
structure RepoInfo where
  owner : String
  repo : String
deriving DecidableEq, Repr

/-- `PRId` of `src/requests/prs.ts`: a repository plus a PR number. -/
structure PRId where
  repo_id : RepoInfo
  pr : Nat
deriving DecidableEq, Repr

/-- The `\w` character class of JavaScript regular expressions:
letters, digits and underscore. -/
def jsWord (c : Char) : Bool :=
  ('a' ≤ c && c ≤ 'z') || ('A' ≤ c && c ≤ 'Z') || ('0' ≤ c && c ≤ '9') || c = '_'

/-- The `[\w\d\-]` character class used by the `PR_URL` regular expression. -/
def jsWordDash (c : Char) : Bool :=
  jsWord c || c = '-'

/-- Match a literal character sequence at the head of the input, returning the
rest; models a literal run inside an anchored JavaScript regular expression. -/
def stripLit : List Char → List Char → Option (List Char)
  | [], cs => some cs
  | _ :: _, [] => none
  | p :: ps, c :: cs => if c = p then stripLit ps cs else none

/-- The `PR_URL` regular expression
`^https:\/\/github\.com\/(?<owner>[\w\d\-]+)\/(?<repo>[\w\d\-]+)\/pull\/(?<pr>\d+)$`
as an anchored parser.  The character classes exclude `/`, so the greedy
matches coincide with `takeWhile`. -/
def parsePrUrl (cs : List Char) : Option PRId :=
  match stripLit "https://github.com/".data cs with
  | none => none
  | some cs1 =>
    let own := cs1.takeWhile jsWordDash
    if own.isEmpty then none else
    match cs1.dropWhile jsWordDash with
    | '/' :: cs3 =>
      let rep := cs3.takeWhile jsWordDash
      if rep.isEmpty then none else
      match stripLit "/pull/".data (cs3.dropWhile jsWordDash) with
      | none => none
      | some cs5 =>
        let ds := cs5.takeWhile jsIsDigit
        if ds.isEmpty then none else
        if (cs5.dropWhile jsIsDigit).isEmpty then
          some ⟨⟨own.asString, rep.asString⟩, digitsToNat ds⟩
        else none
    | _ => none

/-- The `PR_SHORT` regular expression
`^(?<owner>\w+)\/(?<repo>[\w\d\-]+)#(?<pr>\d+)$` as an anchored parser. -/
def parsePrShort (cs : List Char) : Option PRId :=
  let own := cs.takeWhile jsWord
  if own.isEmpty then none else
  match cs.dropWhile jsWord with
  | '/' :: cs3 =>
    let rep := cs3.takeWhile jsWordDash
    if rep.isEmpty then none else
    match cs3.dropWhile jsWordDash with
    | '#' :: cs5 =>
      let ds := cs5.takeWhile jsIsDigit
      if ds.isEmpty then none else
      if (cs5.dropWhile jsIsDigit).isEmpty then
        some ⟨⟨own.asString, rep.asString⟩, digitsToNat ds⟩
      else none
    | _ => none
  | _ => none

/-- `parse_pr` of the source: try the canonical URL form, then the
`owner/repo#N` short form. -/
def parse_pr (pr : String) : Option PRId :=
  match parsePrUrl pr.data with
  | some r => some r
  | none => parsePrShort pr.data

/-- `stringify_pr` of the source: the canonical hosted-review URL. -/
def stringify_pr (pr : PRId) : String :=
  "https://github.com/" ++ pr.repo_id.owner ++ "/" ++ pr.repo_id.repo
    ++ "/pull/" ++ natToString pr.pr

/-! ## Integration-branch state codec

The orchestrator (`merge_prs_into_dev`) persists a `DevBranchStatus` record as
the message of a distinguished commit: subject `Dev Branch Status`, body the
`yaml.stringify` serialization passed through
`Buffer.from(...).toString('base64')`.  The reader `get_dev_branch_status`
scans the last few commits for that subject and committer and runs
`yaml.parse` on the raw message.  The `yaml` npm library is modelled below on
the exact document shapes this codec exercises: a block mapping from keys to
sequences of plain scalars (what `yaml.stringify` emits for the status
record), and a plain scalar for any document with no key line (what a base64
blob parses as). -/

/-- `DevBranchStatus` of `src/requests/branches.ts`; the Lean fields
`included`/`removed`/`dependencies` model the source keys
`Included PRs`/`Removed PRs`/`Dependencies`. -/
structure DevBranchStatus where
  included : List String
  removed : List String
  dependencies : List String
deriving DecidableEq, Repr

/-- A YAML value as consumed by this codec: a plain scalar or a sequence of
plain scalars. -/
inductive YamlVal where
  | scalar (s : String)
  | seq (items : List String)
deriving DecidableEq, Repr

/-- A YAML document as consumed by this codec: a plain scalar or a block
mapping. -/
inductive Yaml where
  | scalar (s : String)
  | map (entries : List (String × YamlVal))
deriving DecidableEq, Repr

/-- Split a key line at its first colon. -/
def splitFirstColon (l : String) : Option (String × String) :=
  match l.data.dropWhile (· ≠ ':') with
  | ':' :: rest => some ((l.data.takeWhile (· ≠ ':')).asString, rest.asString)
  | _ => none

/-- A top-level mapping key line: unindented, non-empty, containing a colon. -/
def isKeyLine (l : String) : Bool :=
  !strStartsWith l " " && !strIsEmpty (strTrim l) && l.data.contains ':'

/-- A block-sequence item line as emitted by `yaml.stringify`. -/
def isItemLine (l : String) : Bool :=
  strStartsWith l "  - "

/-- Fuelled parsing loop for a block mapping (`yaml.parse` on a mapping
document): each unindented line is `key:` followed by `  - item` lines, or
`key: value` with an inline value (`[]` for the empty sequence).  The fuel
never runs out when it starts at the line count. -/
def parseMapLinesGo : Nat → List String → Option (List (String × YamlVal))
  | _, [] => some []
  | 0, _ :: _ => none
  | fuel + 1, l :: rest =>
    if strIsEmpty (strTrim l) then parseMapLinesGo fuel rest
    else if strStartsWith l " " then none
    else
      match splitFirstColon l with
      | none => none
      | some (k, after) =>
        if strIsEmpty after then
          let items := rest.takeWhile isItemLine
          let rest2 := rest.dropWhile isItemLine
          (parseMapLinesGo fuel rest2).map
            (fun es => (k, YamlVal.seq (items.map (fun i => strTrim (strDrop i 4)))) :: es)
        else if strStartsWith after " " then
          let v := strTrim after
          (parseMapLinesGo fuel rest).map
            (fun es => (k, if v = "[]" then YamlVal.seq [] else YamlVal.scalar v) :: es)
        else none

/-- Parse the lines of a block mapping. -/
def parseMapLines (lines : List String) : Option (List (String × YamlVal)) :=
  parseMapLinesGo lines.length lines

/-- `yaml.parse` on the two document shapes this codec exercises: a document
with a top-level key line parses as a block mapping (`none` models a thrown
parse error), any other document parses as a plain scalar. -/
def yaml_parse (s : String) : Option Yaml :=
  let lines := strSplitCh s '\n'
  if lines.any isKeyLine then (parseMapLines lines).map Yaml.map
  else some (Yaml.scalar (strTrim s))

/-- One key of `yaml.stringify` output for the status record: inline `[]` for
an empty list, otherwise a block sequence of plain scalars. -/
def yamlListLines (key : String) (items : List String) : String :=
  if items.isEmpty then key ++ ": []\n"
  else items.foldl (fun acc i => acc ++ ("  - " ++ i ++ "\n")) (key ++ ":\n")

/-- `yaml.stringify` applied to a `DevBranchStatus` record, as the orchestrator
does when writing the state commit. -/
def yaml_stringify (st : DevBranchStatus) : String :=
  yamlListLines "Included PRs" st.included
    ++ yamlListLines "Removed PRs" st.removed
    ++ yamlListLines "Dependencies" st.dependencies

/-- The base64 alphabet. -/
def b64Char (i : Nat) : Char :=
  "ABCDEFGHIJKLMNOPQRSTUVWXYZabcdefghijklmnopqrstuvwxyz0123456789+/".data.getD i '='

/-- Base64 of a byte list, three bytes at a time with `=` padding. -/
def base64Encode : List Nat → String
  | [] => ""
  | [a] => ⟨[b64Char (a / 4), b64Char (a % 4 * 16), '=', '=']⟩
  | [a, b] => ⟨[b64Char (a / 4), b64Char (a % 4 * 16 + b / 16), b64Char (b % 16 * 4), '=']⟩
  | a :: b :: c :: rest =>
    ⟨[b64Char (a / 4), b64Char (a % 4 * 16 + b / 16), b64Char (b % 16 * 4 + c / 64),
      b64Char (c % 64)]⟩ ++ base64Encode rest

/-- `Buffer.from(s).toString('base64')` of the source (the "scramble" of the
state-commit message).  The payloads are ASCII, where the UTF-8 bytes are the
character codes. -/
def scramble (s : String) : String :=
  base64Encode (s.data.map Char.toNat)

/-- A commit record as returned by `get_commits` of `src/requests/repos.ts`,
restricted to the fields the state codec and the rebuild decider consume. -/
structure Commit where
  committer_name : String
  committer_date : Int
  subject : String
  message : String
deriving DecidableEq, Repr

/-- The fixed committer identity of the machine-authored state commit. -/
def BOT_NAME : String := "MergeMasterXXL"

/-- The fixed subject line of the state commit. -/
def STATUS_SUBJECT : String := "Dev Branch Status"

/-- `get_dev_branch_status` of the source: scan the given commits for the
distinguished state commit and `yaml.parse` its raw message (a parse error is
reported as `null`). -/
def get_dev_branch_status (commits : List Commit) : Option Yaml :=
  match commits.find? (fun c => c.committer_name = BOT_NAME && c.subject = STATUS_SUBJECT) with
  | none => none
  | some c => yaml_parse c.message

/-- JavaScript property access `y[key]` on a parsed YAML document: a key of a
mapping, `undefined` (`none`) on a scalar. -/
def yamlGet (y : Yaml) (key : String) : Option YamlVal :=
  match y with
  | .scalar _ => none
  | .map es => (es.find? (·.1 = key)).map (·.2)

/-- `y[key]` viewed as an array of strings, as lodash consumes it: only an
actual sequence counts (lodash `difference` treats a non-array operand as
absent). -/
def yamlGetList (y : Yaml) (key : String) : Option (List String) :=
  match yamlGet y key with
  | some (.seq l) => some l
  | _ => none

/-- The state commit written by `merge_prs_into_dev` (part_001 line 170):
subject `Dev Branch Status`, body the base64-scrambled YAML serialization,
committed under the bot identity. -/
def write_status_commit (st : DevBranchStatus) (date : Int) : Commit :=
  ⟨BOT_NAME, date, STATUS_SUBJECT, scramble (yaml_stringify st)⟩

/-- The state recovered from the integration branch as the claim reads
`get_dev_branch_status`: the three lists of the persisted record. -/
def read_status (commits : List Commit) : Option DevBranchStatus :=
  match get_dev_branch_status commits with
  | none => none
  | some y =>
    match yamlGetList y "Included PRs", yamlGetList y "Removed PRs",
        yamlGetList y "Dependencies" with
    | some i, some r, some d => some ⟨i, r, d⟩
    | _, _, _ => none

/-- A state commit whose body is the plain (unscrambled) YAML serialization,
as written by the superseded orchestrator variants (`entry_point.ts` line 153);
used to exercise the rebuild decider with readable prior state. -/
def plain_status_commit (st : DevBranchStatus) (date : Int) : Commit :=
  ⟨BOT_NAME, date, STATUS_SUBJECT, yaml_stringify st⟩

/-! ## Incremental Rebuild Decider (`needs_update` of part_001)

The git queries of `needs_update` are passed in as explicit arguments:
`devTip` is `get_commits(repo_id, dev_branch + " -n 1")`, `devCustomTip` the
same for the overlay branch, `devLast5` is `get_commits(dev_branch + " -n 5")`
and `commitsToMaster` is `get_commits(dev_branch + ".." + default_branch)`. -/

/-- A change request after `load_pr`, restricted to the fields the decider,
the merge loop and the resolver consume. -/
structure PullRequest where
  labels : List String
  baseRefName : String
  bodyText : String
  isDraft : Bool
  locked : Bool
  merged : Bool
  number : Nat
  permalink : String
  title : String
  updatedAt : Int
  dependencies : List PRId
deriving DecidableEq, Repr

/-- `PRInfo` of `src/requests/prs.ts`: resolved changes plus cross-repo
dependencies. -/
structure PRInfo where
  prs : List PullRequest
  dependencies : List PRId
deriving DecidableEq, Repr

/-- lodash `_.difference(a, b)` as `needs_update` applies it to the
(possibly `undefined`) persisted lists: a non-array first operand yields `[]`,
a non-array second operand excludes nothing. -/
def jsDifference (a : Option (List String)) (b : Option (List String)) : List String :=
  match a with
  | none => []
  | some l =>
    match b with
    | none => l
    | some m => l.filter (fun x => !m.contains x)

/-- Outcome of `needs_update`: the returned decision, whether the stale
integration branch was torn down, and the two logged difference lists. -/
structure NUResult where
  update : Bool
  deleted_dev : Bool
  added : List String
  removed : List String
deriving DecidableEq, Repr

/-- `needs_update` of part_001.  `added` and `removed` are the lists the
source computes under those names (and logs as "Detected new PRs" and
"Detected merged or closed PRs"); the tear-down branch records its
`delete_dev` call in `deleted_dev` (suppressed remotely in dry-run mode but
always decided). -/
def needs_update (devTip devCustomTip devLast5 commitsToMaster : List Commit)
    (prs : PRInfo) : NUResult :=
  let devUpdate := devTip.head?.map (·.committer_date)
  let devCustomUpdate := devCustomTip.head?.map (·.committer_date)
  if prs.prs.isEmpty && devCustomUpdate.isNone then
    if devUpdate.isSome then ⟨false, true, [], []⟩ else ⟨false, false, [], []⟩
  else
    match devUpdate with
    | some d =>
      let status := get_dev_branch_status devLast5
      let permalinks := prs.prs.map (·.permalink)
      let (added, removed) :=
        match status with
        | none => ([], [])
        | some y =>
          let inc := yamlGetList y "Included PRs"
          (jsDifference inc (some permalinks), jsDifference (some permalinks) inc)
      let upd := !added.isEmpty || !removed.isEmpty
        || decide (0 < commitsToMaster.length)
        || prs.prs.any (fun pr => decide (d < pr.updatedAt))
      ⟨upd, false, added, removed⟩
    | none => ⟨true, false, [], []⟩

/-! ## Orchestrator merge-replay loop (part_001, `merge_prs_into_dev`)

The per-change replay loop of the orchestrator, with the git merge outcome
supplied as an oracle `mergeOk` keyed by the change's permalink. -/

/-- The `NOT_REVERTABLE` label constant of `src/requests/prs.ts` (labels are
lower-cased by `load_pr`, so membership is a plain string comparison). -/
def NOT_REVERTABLE : String := "not revertable"

/-- The escalation outcome of the replay loop: the pre-merge integration tip
(identified by the permalinks merged so far) is force-pushed to the error
branch and the repository's cycle is aborted by a thrown error. -/
structure Escalation where
  published : List String
  failed_pr : String
deriving DecidableEq, Repr

/-- The replay loop of `merge_prs_into_dev`: merge each change in resolver
order; on a failed merge, escalate exactly when the change carries the
non-revertible label and its permalink is in the prior state's included set,
otherwise drop the change and continue. -/
def replay (mergeOk : String → Bool) (previously : List String) :
    List PullRequest → List PullRequest → Except Escalation (List PullRequest)
  | [], merged => .ok merged
  | pr :: rest, merged =>
    if mergeOk pr.permalink then replay mergeOk previously rest (merged ++ [pr])
    else if pr.labels.contains NOT_REVERTABLE && previously.contains pr.permalink then
      .error ⟨merged.map (·.permalink), pr.permalink⟩
    else replay mergeOk previously rest merged

/-- The whole replay phase, started with no changes merged. -/
def merge_replay (mergeOk : String → Bool) (previously : List String)
    (prs : List PullRequest) : Except Escalation (List PullRequest) :=
  replay mergeOk previously prs []

/-! ## Pipeline polling (`get_action_state`, `wait_for_action` of
`src/requests/branches.ts`)

The hosting-API responses are supplied as a sequence `fetch k`: the workflow
object of the `k`-th status request (`none` models a null workflow, the inner
`Option` the workflow's possibly-absent `status` field). -/

/-- The status lookup table of `get_action_state`, verbatim from the source
(including the misspelled `in-progess` values, which the callers never
compare against). -/
def WF_LOOKUP : List (String × String) :=
  [("completed", "completed"), ("action_required", "unknown"),
   ("cancelled", "failed"), ("failure", "failed"), ("neutral", "failed"),
   ("skipped", "failed"), ("stale", "failed"), ("success", "completed"),
   ("timed_out", "failed"), ("in_progress", "in-progess"),
   ("queued", "in-progess"), ("requested", "in-progess"),
   ("waiting", "in-progess"), ("pending", "in-progess")]

/-- `get_action_state` of the source: `null` for a missing workflow,
otherwise the mapped status with `unknown` for a falsy or unmapped status. -/
def get_action_state (workflow : Option (Option String)) : Option String :=
  match workflow with
  | none => none
  | some st =>
    some (match st with
      | none => "unknown"
      | some s =>
        match WF_LOOKUP.lookup s with
        | some v => v
        | none => "unknown")

/-- The bounded polling loop of `wait_for_action` (`for (var i = 0; i < 6; ...)`):
`k` is the index of the next status request, `rem` the remaining attempts.
The source returns `false` both for a failed status and — on the line that
logs "has completed" — for a completed status. -/
def waitLoop (fetch : Nat → Option (Option String)) : Nat → Nat → Bool
  | _, 0 => false
  | k, rem + 1 =>
    let st := get_action_state (fetch k)
    if st = some "failed" then false
    else if st = some "completed" then false
    else waitLoop fetch (k + 1) rem

/-- `wait_for_action` of the source: `true` only when the initial check
already reports `completed`; otherwise sleep and poll up to six times. -/
def wait_for_action (fetch : Nat → Option (Option String)) : Bool :=
  if get_action_state (fetch 0) = some "completed" then true
  else waitLoop fetch 1 6

/-! ## Dependency graph (the `dependency-graph` npm package)

Modelled at the interface the sources use: string-keyed nodes in insertion
order, directed edges `from depends on to`.  `overallOrder` returns a
topological order with dependencies first (`none` models the thrown
`DepGraphCycleError`); `addDependency` requires both nodes to exist (`none`
models the thrown missing-node error). -/

structure DepGraph where
  nodes : List String
  edges : List (String × String)
deriving DecidableEq, Repr

def DepGraph.hasNode (g : DepGraph) (k : String) : Bool :=
  g.nodes.contains k

def DepGraph.addNode (g : DepGraph) (k : String) : DepGraph :=
  if g.hasNode k then g else ⟨g.nodes ++ [k], g.edges⟩

def DepGraph.addDependency (g : DepGraph) (f t : String) : Option DepGraph :=
  if g.hasNode f && g.hasNode t then
    some (if g.edges.contains (f, t) then g else ⟨g.nodes, g.edges ++ [(f, t)]⟩)
  else none

/-- The first unemitted node all of whose dependencies are emitted. -/
def readyNode (g : DepGraph) (done : List String) : Option String :=
  g.nodes.find? (fun n =>
    !done.contains n
      && (g.edges.filter (·.1 = n)).all (fun e => done.contains e.2))

/-- Kahn-style emission loop for `overallOrder`, fuelled by the node count. -/
def overallOrderGo (g : DepGraph) : List String → Nat → Option (List String)
  | done, 0 => if done.length = g.nodes.length then some done else none
  | done, fuel + 1 =>
    if done.length = g.nodes.length then some done
    else
      match readyNode g done with
      | none => none
      | some n => overallOrderGo g (done ++ [n]) fuel

/-- `overallOrder` of the library: a deterministic topological order with
dependencies first, failing exactly on a cycle.  (The npm implementation uses
a DFS with a different deterministic tie-break; the callers below do not
depend on the tie-break.) -/
def DepGraph.overallOrder (g : DepGraph) : Option (List String) :=
  overallOrderGo g [] (g.nodes.length + 1)

/-- JavaScript `Array.prototype.indexOf`: the index of the first occurrence,
`-1` when absent. -/
def jsIndexOf (l : List String) (s : String) : Int :=
  match l.findIdx? (· = s) with
  | some i => (i : Int)
  | none => -1

/-- Stable insertion of one element under a JavaScript comparator: the element
moves in front of the first kept element it compares less-than against. -/
def jsInsert (cmp : α → α → Int) (x : α) : List α → List α
  | [] => [x]
  | y :: ys => if cmp x y < 0 then x :: y :: ys else y :: jsInsert cmp x ys

/-- `Array.prototype.sort(cmp)` as a stable comparison sort.  `get_merged_prs`
passes a one-parameter callback, so `cmp a b` ignores `b` and never returns a
negative value; every stable comparison sort (the ECMAScript spec requires
stability, and V8's TimSort detects one non-descending run and stops) then
returns the array unchanged, as this model does. -/
def jsSort (cmp : α → α → Int) (l : List α) : List α :=
  l.foldl (fun acc x => jsInsert cmp x acc) []

/-! ## Merged-change resolver (`get_merged_prs` of `src/requests/prs.ts`)

The paged GraphQL fetch is supplied as the already-collected list of raw PR
records; `load_pr` and the filtering, graph construction and sort are embedded
from the source. -/

/-- A raw PR record as returned by the GraphQL queries, restricted to the
fields `load_pr` and the resolver consume (label names are the raw,
un-normalized strings; `updatedAt` is the parsed timestamp). -/
structure QLPR where
  labels : List String
  baseRefName : String
  bodyText : String
  isDraft : Bool
  locked : Bool
  merged : Bool
  number : Nat
  permalink : String
  title : String
  updatedAt : Int
deriving DecidableEq, Repr

/-- JavaScript `split(/[\n\r]+/)`: split on maximal runs of newline
characters, keeping leading/trailing empty fields as JavaScript does. -/
def jsSplitNewlinesGo : List Char → List Char → Bool → List String
  | [], buf, _ => [buf.reverse.asString]
  | c :: rest, buf, prevNl =>
    if c = '\n' ∨ c = '\r' then
      if prevNl then jsSplitNewlinesGo rest [] true
      else buf.reverse.asString :: jsSplitNewlinesGo rest [] true
    else jsSplitNewlinesGo rest (c :: buf) false

def jsSplitNewlines (s : String) : List String :=
  jsSplitNewlinesGo s.data [] false

/-- The `PR_HASH` regular expression `^(?<owner>\w+)?#(?<pr>\d+)$` as an
anchored parser: an optional owner group, a hash, and the PR number. -/
def parsePrHash (cs : List Char) : Option (Option String × Nat) :=
  let own := cs.takeWhile jsWord
  match cs.dropWhile jsWord with
  | '#' :: ds0 =>
    let ds := ds0.takeWhile jsIsDigit
    if ds.isEmpty then none
    else if (ds0.dropWhile jsIsDigit).isEmpty then
      some (if own.isEmpty then none else some own.asString, digitsToNat ds)
    else none
  | _ => none

/-- One description line of `load_pr`: `some none` for a non-dependency line,
`some (some id)` for a resolvable `depends on:` line, `none` when the declared
dependency is invalid (which discards the owning change). -/
def parseDepLine (repo_info : RepoInfo) (line : String) : Option (Option PRId) :=
  if !strStartsWith line "depends on:" then some none
  else
    let dep := strTrim (strDrop line 11)
    let dep2 :=
      match parsePrHash dep.data with
      | some (ownOpt, n) =>
        stringify_pr ⟨⟨ownOpt.getD repo_info.owner, repo_info.repo⟩, n⟩
      | none => dep
    match parse_pr dep2 with
    | some id => some (some id)
    | none => none

/-- The dependency scan of `load_pr` over the split description lines. -/
def collectDeps (repo_info : RepoInfo) : List String → Option (List PRId)
  | [] => some []
  | l :: rest =>
    match parseDepLine repo_info l with
    | none => none
    | some none => collectDeps repo_info rest
    | some (some id) => (collectDeps repo_info rest).map (id :: ·)

/-- `load_pr` of the source: lower-case the labels, parse the declared
dependencies, and drop the change entirely when a dependency is invalid. -/
def load_pr (repo_info : RepoInfo) (ql : QLPR) : Option PullRequest :=
  (collectDeps repo_info (jsSplitNewlines ql.bodyText)).map fun deps =>
    ⟨ql.labels.map strToLower, ql.baseRefName, ql.bodyText, ql.isDraft,
     ql.locked, ql.merged, ql.number, ql.permalink, ql.title, ql.updatedAt, deps⟩

/-- The hard-coded organization of the cross-repo dependency test in the
resolvers. -/
def HOME_ORG : String := "GTNewHorizons"

/-- The graph-and-cross-repo-dependency accumulation step shared by the two
resolver entry points: ensure the dependency's node exists, add the edge, and
record the dependency when its repository differs from the current one. -/
def addPrDeps (repo : String) (acc : DepGraph × List PRId) (pr : PullRequest) :
    Option (DepGraph × List PRId) :=
  pr.dependencies.foldlM
    (fun (st : DepGraph × List PRId) dep =>
      let dp := stringify_pr dep
      let g1 := if st.1.hasNode dp then st.1 else st.1.addNode dp
      (g1.addDependency pr.permalink dp).map fun g2 =>
        (g2,
          if dep.repo_id.owner ≠ HOME_ORG ∨ dep.repo_id.repo ≠ repo then st.2 ++ [dep]
          else st.2))
    acc

/-- `get_merged_prs` of the source, from the collected fetch results onward:
filter by base branch, draft and lock state, load each change, keep the
whitelisted PR numbers, build the dependency graph, and sort with
`validPRs.sort(pr => order.indexOf(pr.permalink))` — a one-parameter callback
passed as the comparator. -/
def get_merged_prs_core (repo_info : RepoInfo) (fetched : List QLPR)
    (default_branch : String) (whitelist : List Nat) : Option PRInfo := do
  let validPRs :=
    ((fetched.filter fun p =>
        p.baseRefName = default_branch && !p.isDraft && !p.locked).filterMap
      (load_pr repo_info)).filter fun pr => whitelist.contains pr.number
  let g0 := validPRs.foldl (fun g pr => g.addNode pr.permalink) ⟨[], []⟩
  let (g, cross) ← validPRs.foldlM (addPrDeps repo_info.repo) (g0, [])
  let order ← g.overallOrder
  let sorted := jsSort (fun a _ => jsIndexOf order a.permalink) validPRs
  return ⟨sorted, cross⟩

/-! ## Release-scheduler location map and edge loop (`src/tag_dev.ts`)

The per-repository state tables (`devPRs`, `masterPRs`, `devDependencies`,
`masterDependencies`) are string-keyed JavaScript objects iterated in
insertion order; they are modelled as association lists. -/

def stringify_repo_id (ri : RepoInfo) : String :=
  ri.owner ++ "/" ++ ri.repo

/-- `parse_repo_id` of `src/requests/repos.ts`: split on `/`, defaulting the
organization for a bare name.  (The empty-chunk case leaves JavaScript
`undefined` fields; it is modelled with empty strings and is unreachable for
configured repository ids.) -/
def parse_repo_id (repo_id : String) : RepoInfo :=
  let chunks := (strSplitCh repo_id '/').filter (fun c => !strIsEmpty c)
  match chunks with
  | [r] => ⟨"GTNewHorizons", r⟩
  | o :: r :: _ => ⟨o, r⟩
  | [] => ⟨"", ""⟩

def normalize_repo_id (repo_id : String) : String :=
  stringify_repo_id (parse_repo_id repo_id)

/-- The branch variant of a release target. -/
inductive BranchKind where
  | master
  | dev
deriving DecidableEq, Repr

/-- `PRDestination` of `src/tag_dev.ts`. -/
structure PRDestination where
  repo_info : RepoInfo
  branch : BranchKind
deriving DecidableEq, Repr

/-- `stringify_dest` of `src/tag_dev.ts`: `Org/Repo:branch`. -/
def stringify_dest (d : PRDestination) : String :=
  stringify_repo_id d.repo_info ++ ":"
    ++ (match d.branch with | .master => "master" | .dev => "dev")

/-- Property read on a string-keyed JavaScript object. -/
def objGet (o : List (String × α)) (k : String) : Option α :=
  (o.find? (·.1 = k)).map (·.2)

/-- Property assignment on a string-keyed JavaScript object: replace an
existing key in place, append a new one.  (The location maps are built from
the empty object, so keys are unique and replacing the first occurrence is
replacing the only one.) -/
def objSet : List (String × α) → String → α → List (String × α)
  | [], k, v => [(k, v)]
  | e :: os, k, v => if e.1 = k then (k, v) :: os else e :: objSet os k v

/-- Record one repository's PR list into the location map under the given
branch variant (the body of the two `pr_locations` loops). -/
def recordLocations (branch : BranchKind) (acc : List (String × PRDestination))
    (entry : String × List PRId) : List (String × PRDestination) :=
  entry.2.foldl
    (fun acc pr => objSet acc (stringify_pr pr) ⟨parse_repo_id entry.1, branch⟩)
    acc

/-- The `pr_locations` construction of `src/tag_dev.ts`: the `devPRs` loop
runs first, the `masterPRs` loop second, each assignment overwriting any
earlier entry for the same change. -/
def build_pr_locations (devPRs masterPRs : List (String × List PRId)) :
    List (String × PRDestination) :=
  masterPRs.foldl (recordLocations .master)
    (devPRs.foldl (recordLocations .dev) [])

/-- State of the dependency-edge loop of `src/tag_dev.ts`: the release-target
graph, the `success` flag cleared when a dependency cannot be located, and the
destinations warned about and ignored because they are outside the scan. -/
structure EdgeLoopState where
  graph : DepGraph
  success : Bool
  dropped : List String
deriving DecidableEq, Repr

/-- One dependency of the edge loop: a change with no recorded location marks
the run failed; a located destination whose node is not in the graph is warned
about and skipped; otherwise the edge is added (`none` models the library's
thrown missing-node error, unreachable here because the loop's `from` nodes
are seeded for every scanned repository). -/
def add_dep_edge (locations : List (String × PRDestination)) (fromKey : String)
    (st : EdgeLoopState) (dep : PRId) : Option EdgeLoopState :=
  match objGet locations (stringify_pr dep) with
  | none => some { st with success := false }
  | some depDest =>
    let t := stringify_dest depDest
    if !st.graph.hasNode t then some { st with dropped := st.dropped ++ [t] }
    else (st.graph.addDependency fromKey t).map fun g => { st with graph := g }

/-- The release-target node seeding of `src/tag_dev.ts`: a `:master` node for
every scanned repository, a `:dev` node plus the implicit dev→master edge when
the repository has an integration branch. -/
def seed_targets (repo_ids : List String) (has_dev : String → Bool) :
    Option DepGraph :=
  repo_ids.foldlM
    (fun g repo =>
      let g1 := g.addNode (repo ++ ":master")
      if has_dev repo then
        (g1.addNode (repo ++ ":dev")).addDependency (repo ++ ":dev") (repo ++ ":master")
      else some g1)
    ⟨[], []⟩

/-- The full dependency-edge loop of `src/tag_dev.ts`: for each scanned
repository, process its master-branch dependencies and then its dev-branch
dependencies. -/
def build_edges (repo_ids : List String)
    (masterDependencies devDependencies : List (String × List PRId))
    (locations : List (String × PRDestination)) (g0 : DepGraph) :
    Option EdgeLoopState :=
  repo_ids.foldlM
    (fun st repo => do
      let st1 ← ((objGet masterDependencies repo).getD []).foldlM
        (add_dep_edge locations (normalize_repo_id repo ++ ":master")) st
      ((objGet devDependencies repo).getD []).foldlM
        (add_dep_edge locations (normalize_repo_id repo ++ ":dev")) st1)
    ⟨g0, true, []⟩

/-! ## Concrete scenario inputs

Concrete instances used by the witness and counterexample theorems below. -/

/-- A change request with only the fields relevant to the decider and the
replay loop populated. -/
def mkPr (permalink : String) (updatedAt : Int) : PullRequest :=
  ⟨[], "master", "", false, false, false, 0, permalink, "", updatedAt, []⟩

/-- The state committed in the C1 scenario. -/
def c1_state : DevBranchStatus :=
  ⟨["https://github.com/GTNewHorizons/ExampleMod/pull/1"], [], []⟩

/-- The C2 polling scenario: the run is in progress at the initial check and
reports success at the first poll. -/
def c2_fetch : Nat → Option (Option String) :=
  fun k => if k = 0 then some (some "in_progress") else some (some "success")

/-- The C3 scenario's prior state: changes `A` and `B` previously included. -/
def c3_prior : DevBranchStatus := ⟨["A", "B"], [], []⟩

/-- The C3 scenario's currently resolved set: changes `A` and `C`. -/
def c3_prs : PRInfo := ⟨[mkPr "A" 0, mkPr "C" 0], []⟩

/-- The integration-branch tip commit of the C3/C10 scenarios. -/
def c3_devTip : Commit := ⟨"dev", 5, "tip", ""⟩

/-- A change present in two repositories' states in the C4 scenario. -/
def c4_id : PRId := ⟨⟨"GTNewHorizons", "X"⟩, 1⟩

/-- The C4 scenario's integration-variant state table. -/
def c4_devPRs : List (String × List PRId) := [("GTNewHorizons/RepoA", [c4_id])]

/-- The C4 scenario's stable-variant state table. -/
def c4_masterPRs : List (String × List PRId) := [("GTNewHorizons/RepoB", [c4_id])]

/-- The C5 scenario's merge oracle: every change merges except `P3`. -/
def c5_mergeOk : String → Bool := fun p => p != "P3"

/-- The C5 scenario's non-revertible change. -/
def c5_prNR : PullRequest :=
  ⟨[NOT_REVERTABLE], "master", "", false, false, false, 3, "P3", "", 0, []⟩

/-- A merged change with no dependencies in the C6 scenario. -/
def c6_q1 : QLPR :=
  ⟨[], "master", "", false, false, true, 1,
   "https://github.com/GTNewHorizons/ExampleMod/pull/1", "one", 0⟩

/-- A merged change declaring `depends on: #1` in the C6 scenario, fetched
before its dependency. -/
def c6_q2 : QLPR :=
  ⟨[], "master", "depends on: #1", false, false, true, 2,
   "https://github.com/GTNewHorizons/ExampleMod/pull/2", "two", 0⟩

/-- The repository of the C6 scenario. -/
def c6_repo : RepoInfo := ⟨"GTNewHorizons", "ExampleMod"⟩

/-- The C10 scenario's prior state: exactly the currently resolved set. -/
def c10_prior : DevBranchStatus := ⟨["A", "C"], [], []⟩

/-- The parsed YAML document of the C10 scenario's state commit. -/
def c10_y : Yaml :=
  .map [("Included PRs", .seq ["A", "C"]), ("Removed PRs", .seq []),
        ("Dependencies", .seq [])]

/-- A commit on the default branch that is not on the integration branch in
the C10 scenario. -/
def c10_master_commit : Commit := ⟨"someone", 9, "a fix", ""⟩

/-! # Theorems -/

set_option maxRecDepth 100000

/-! ## Helper lemmas -/

theorem getLast?_decomp {l : List Nat} {v : Nat} (h : l.getLast? = some v) :
    l = l.dropLast ++ [v] :=
  (List.dropLast_append_getLast? v (by simp [h])).symm

/-- Claim C7: `increment_tag` bumps the last numeric component by exactly 1,
leaves the earlier components (`values.dropLast`) unchanged, toggles the
trailing `-pre` literal per the caller's flag (one trailing `-pre` is
stripped, and `-pre` is appended exactly when the flag is set), and returns
the stringification of the resulting tag; moreover the three example
evaluations of the claim hold. -/
theorem increment_tag_semantics :
    (∀ (t : ParsedTag) (p : Bool) (v : Nat), t.values.getLast? = some v →
      ((increment_tag t p).1.values = t.values.dropLast ++ [v + 1]
        ∧ (increment_tag t p).1.format = stripPre t.format ++ (if p then PRE else "")
        ∧ (increment_tag t p).2 = stringify_tag (increment_tag t p).1))
    ∧ (increment_tag (parse_tag "2.3.1") false).2 = "2.3.2"
    ∧ (increment_tag (parse_tag "2.3.1") true).2 = "2.3.2-pre"
    ∧ (increment_tag (parse_tag "2.3.2-pre") true).2 = "2.3.3-pre" := by
  refine ⟨?_, by decide, by decide, by decide⟩
  intro t p v h
  cases p <;> simp [increment_tag, h]

/-- Witness for C7: the general part of `increment_tag_semantics` applied to
the parsed form of `2.3.1` with the pre-release flag set. -/
theorem increment_tag_semantics_witness :
    (⟨"%d.%d.%d", [2, 3, 1]⟩ : ParsedTag).values.getLast? = some 1
    ∧ ((increment_tag ⟨"%d.%d.%d", [2, 3, 1]⟩ true).1.values
          = (⟨"%d.%d.%d", [2, 3, 1]⟩ : ParsedTag).values.dropLast ++ [1 + 1]
        ∧ (increment_tag ⟨"%d.%d.%d", [2, 3, 1]⟩ true).1.format
          = stripPre "%d.%d.%d" ++ (if true then PRE else "")
        ∧ (increment_tag ⟨"%d.%d.%d", [2, 3, 1]⟩ true).2
          = stringify_tag (increment_tag ⟨"%d.%d.%d", [2, 3, 1]⟩ true).1) :=
  ⟨by decide, increment_tag_semantics.1 ⟨"%d.%d.%d", [2, 3, 1]⟩ true 1 (by decide)⟩

/-- Counterexample to claim C9: `increment_tag` does not leave its argument
unchanged — incrementing the parsed form of `2.3.1` mutates both the numeric
component list and the format string of the argument. -/
theorem increment_tag_mutates :
    (increment_tag (parse_tag "2.3.1") true).1 ≠ parse_tag "2.3.1" := by
  decide

/-- Claim C9 as amended: `increment_tag` updates its `ParsedTag` argument in
place — afterwards the tag differs from its pre-call value, its last numeric
component is one greater with the earlier components unchanged — and the
returned string is exactly the stringification of the mutated tag (so the
result is determined by the inputs alone). -/
theorem increment_tag_mutation_shape
    (t : ParsedTag) (p : Bool) (v : Nat) (h : t.values.getLast? = some v) :
    (increment_tag t p).1 ≠ t
    ∧ (increment_tag t p).1.values = t.values.dropLast ++ [v + 1]
    ∧ (increment_tag t p).2 = stringify_tag (increment_tag t p).1 := by
  have hvals : (increment_tag t p).1.values = t.values.dropLast ++ [v + 1] := by
    simp [increment_tag, h]
  refine ⟨?_, hvals, by simp [increment_tag]⟩
  intro heq
  have hv := congrArg ParsedTag.values heq
  rw [hvals] at hv
  nth_rewrite 2 [getLast?_decomp h] at hv
  have h2 := List.append_cancel_left hv
  simp at h2

/-- Witness for C9: `increment_tag_mutation_shape` applied to the parsed form
of `2.3.1`. -/
theorem increment_tag_mutation_shape_witness :
    (increment_tag ⟨"%d.%d.%d", [2, 3, 1]⟩ false).1 ≠ ⟨"%d.%d.%d", [2, 3, 1]⟩
    ∧ (increment_tag ⟨"%d.%d.%d", [2, 3, 1]⟩ false).1.values
        = (⟨"%d.%d.%d", [2, 3, 1]⟩ : ParsedTag).values.dropLast ++ [1 + 1]
    ∧ (increment_tag ⟨"%d.%d.%d", [2, 3, 1]⟩ false).2
        = stringify_tag (increment_tag ⟨"%d.%d.%d", [2, 3, 1]⟩ false).1 :=
  increment_tag_mutation_shape ⟨"%d.%d.%d", [2, 3, 1]⟩ false 1 (by decide)

/-- Claim C1: the state write/read round trip fails on the code.  The
orchestrator commits the state base64-scrambled, but `get_dev_branch_status`
runs `yaml.parse` on the raw message, so the read-back yields a YAML plain
scalar holding the base64 text instead of the persisted record: the included,
removed and dependencies lists are not recovered.  The third conjunct shows
the same reader does recover the state from an unscrambled body, isolating
the scramble as the culprit. -/
theorem state_commit_read_back_fails :
    get_dev_branch_status [write_status_commit c1_state 0]
      = some (Yaml.scalar (scramble (yaml_stringify c1_state)))
    ∧ read_status [write_status_commit c1_state 0] = none
    ∧ read_status [plain_status_commit c1_state 0] = some c1_state := by
  decide

/-- Claim C2: a run that reaches the `Completed` state at a poll inside the
bounded loop is reported as a failure.  In `c2_fetch` the run is in progress
at the initial check and reports success at the first poll; the mapped state
is `completed`, yet `wait_for_action` returns `false` (the branch that logs
"has completed" returns `false`, the same value as the failure and timeout
branches). -/
theorem wait_for_action_completed_poll_reports_failure :
    get_action_state (c2_fetch 0) = some "in-progess"
    ∧ get_action_state (c2_fetch 1) = some "completed"
    ∧ wait_for_action c2_fetch = false := by
  decide

/-- Claim C3: with previously included changes `A`,`B` and current resolved
set `A`,`C`, the decider's `_.difference` arguments are swapped — it computes
`added = [B]` (previous minus current, logged as "Detected new PRs") and
`removed = [C]` (current minus previous, logged as "Detected merged or closed
PRs"), the reverse of the claim's `added = {C}`, `removed = {B}`; the rebuild
decision itself is still forced. -/
theorem needs_update_diff_lists_swapped :
    needs_update [c3_devTip] [] [plain_status_commit c3_prior 0] [] c3_prs
      = ⟨true, false, ["B"], ["C"]⟩ := by
  decide

/-- A successfully replayed prefix composes: replaying `xs ++ l` continues
`l` from the changes merged during `xs`. -/
theorem replay_append_ok (mergeOk : String → Bool) (previously : List String) :
    ∀ (xs : List PullRequest) (acc m : List PullRequest),
      replay mergeOk previously xs acc = .ok m →
      ∀ l, replay mergeOk previously (xs ++ l) acc = replay mergeOk previously l m := by
  intro xs
  induction xs with
  | nil =>
    intro acc m h l
    simp only [replay] at h
    cases h
    simp
  | cons pr rest ih =>
    intro acc m h l
    simp only [replay, List.cons_append] at h ⊢
    cases h1 : mergeOk pr.permalink with
    | true =>
      simp only [h1] at h ⊢
      simp only [if_true] at h ⊢
      exact ih _ _ h l
    | false =>
      simp only [h1] at h ⊢
      simp only [Bool.false_eq_true, if_false] at h ⊢
      cases h2 : (pr.labels.contains NOT_REVERTABLE && previously.contains pr.permalink) with
      | true =>
        simp only [h2, if_true] at h
        exact absurd h (by simp)
      | false =>
        simp only [h2, Bool.false_eq_true, if_false] at h ⊢
        exact ih _ _ h l

/-- Claim C5: when a change's merge fails after a successfully replayed
prefix, the orchestrator escalates — publishing the pre-merge tip (the
changes merged so far) and aborting — exactly when the change carries the
non-revertible label and was in the prior state's included set; otherwise the
replay continues as if the failing change were absent (it is merely excluded
from this cycle). -/
theorem replay_nonrevertible_escalation
    (mergeOk : String → Bool) (previously : List String)
    (xs ys : List PullRequest) (pr : PullRequest) (m : List PullRequest)
    (hxs : replay mergeOk previously xs [] = .ok m)
    (hfail : mergeOk pr.permalink = false) :
    ((pr.labels.contains NOT_REVERTABLE && previously.contains pr.permalink) = true →
        merge_replay mergeOk previously (xs ++ pr :: ys)
          = .error ⟨m.map (·.permalink), pr.permalink⟩)
    ∧ ((pr.labels.contains NOT_REVERTABLE && previously.contains pr.permalink) = false →
        merge_replay mergeOk previously (xs ++ pr :: ys)
          = merge_replay mergeOk previously (xs ++ ys)) := by
  constructor
  · intro hcond
    unfold merge_replay
    rw [replay_append_ok mergeOk previously xs [] m hxs]
    simp only [replay, hfail, hcond, Bool.false_eq_true, if_false, if_true]
  · intro hcond
    unfold merge_replay
    rw [replay_append_ok mergeOk previously xs [] m hxs,
      replay_append_ok mergeOk previously xs [] m hxs]
    simp only [replay, hfail, hcond, Bool.false_eq_true, if_false]

/-- Witness for C5: in the concrete scenario `P1` merges, the non-revertible
`P3` fails; with `P3` previously included the run escalates publishing `P1`,
and with the escalation condition false the replay would skip `P3`. -/
theorem replay_nonrevertible_escalation_witness :
    ((c5_prNR.labels.contains NOT_REVERTABLE && ["P3"].contains c5_prNR.permalink) = true →
        merge_replay c5_mergeOk ["P3"] ([mkPr "P1" 0] ++ c5_prNR :: [])
          = .error ⟨[mkPr "P1" 0].map (·.permalink), c5_prNR.permalink⟩)
    ∧ ((c5_prNR.labels.contains NOT_REVERTABLE && ["P3"].contains c5_prNR.permalink) = false →
        merge_replay c5_mergeOk ["P3"] ([mkPr "P1" 0] ++ c5_prNR :: [])
          = merge_replay c5_mergeOk ["P3"] ([mkPr "P1" 0] ++ [])) :=
  replay_nonrevertible_escalation c5_mergeOk ["P3"] [mkPr "P1" 0] [] c5_prNR
    [mkPr "P1" 0] rfl rfl

/-- lodash `_.difference(l, l)` is empty. -/
theorem jsDifference_self (l : List String) : jsDifference (some l) (some l) = [] := by
  simp only [jsDifference]
  apply List.filter_eq_nil_iff.mpr
  intro a ha
  simp [ha]

/-- Claim C10: when the integration branch exists, its persisted included set
equals the currently resolved permalinks (so the state diff adds and removes
nothing), and no resolved change is newer than the branch tip, the decider
still forces a rebuild as soon as the default branch has at least one commit
the integration branch lacks. -/
theorem needs_update_default_branch_commits_force_rebuild
    (tip : Commit) (devCustomTip devLast5 commitsToMaster : List Commit)
    (prs : PRInfo) (y : Yaml)
    (hprs : prs.prs ≠ [])
    (hstat : get_dev_branch_status devLast5 = some y)
    (hinc : yamlGetList y "Included PRs" = some (prs.prs.map (·.permalink)))
    (hts : ∀ pr ∈ prs.prs, pr.updatedAt ≤ tip.committer_date)
    (hcm : commitsToMaster ≠ []) :
    needs_update [tip] devCustomTip devLast5 commitsToMaster prs
      = ⟨true, false, [], []⟩ := by
  have hie : prs.prs.isEmpty = false := by
    cases hp : prs.prs with
    | nil => exact absurd hp hprs
    | cons a l => rfl
  have hcml : 0 < commitsToMaster.length := by
    cases hc : commitsToMaster with
    | nil => exact absurd hc hcm
    | cons a l => simp
  have hany : prs.prs.any (fun pr => decide (tip.committer_date < pr.updatedAt)) = false := by
    apply List.any_eq_false.mpr
    intro pr hpr
    simpa using hts pr hpr
  simp only [needs_update, List.head?, hie, Bool.false_and, Bool.false_eq_true,
    if_false, hstat, hinc, jsDifference_self]
  simp [hany, hcml]

/-- Witness for C10: the concrete scenario with prior included set `A`,`C`
equal to the resolved set, change timestamps at most the branch tip's, and one
commit on the default branch. -/
theorem needs_update_default_branch_commits_force_rebuild_witness :
    needs_update [c3_devTip] [] [plain_status_commit c10_prior 0]
      [c10_master_commit] c3_prs = ⟨true, false, [], []⟩ :=
  needs_update_default_branch_commits_force_rebuild c3_devTip []
    [plain_status_commit c10_prior 0] [c10_master_commit] c3_prs c10_y
    (by decide) (by decide) (by decide) (by decide) (by decide)

/-! ## Location-map lemmas for C4 -/

theorem objGet_objSet_same (o : List (String × α)) (k : String) (v : α) :
    objGet (objSet o k v) k = some v := by
  induction o with
  | nil => simp [objSet, objGet, List.find?]
  | cons e os ih =>
    by_cases he : e.1 = k
    · simp [objSet, objGet, he, List.find?]
    · simp only [objSet, he, if_false]
      simpa [objGet, List.find?, he] using ih

theorem objGet_objSet_other (o : List (String × α)) (k q : String) (v : α)
    (hne : k ≠ q) : objGet (objSet o k v) q = objGet o q := by
  induction o with
  | nil => simp [objSet, objGet, List.find?, hne]
  | cons e os ih =>
    by_cases he : e.1 = k
    · simp [objSet, objGet, he, List.find?, hne]
    · simp only [objSet, he, if_false]
      by_cases hq : e.1 = q
      · simp [objGet, List.find?, hq]
      · simpa [objGet, List.find?, hq] using ih

/-- Writing one repository entry's PR list never touches other keys. -/
theorem recordLocations_other (b : BranchKind) (key : String) :
    ∀ (prs : List PRId) (acc : List (String × PRDestination)) (ri : RepoInfo),
      key ∉ prs.map stringify_pr →
      objGet (prs.foldl (fun a pr => objSet a (stringify_pr pr) ⟨ri, b⟩) acc) key
        = objGet acc key := by
  intro prs
  induction prs with
  | nil => intro acc ri h; rfl
  | cons pr ps ih =>
    intro acc ri h
    simp only [List.map_cons, List.mem_cons, not_or] at h
    simp only [List.foldl_cons]
    rw [ih _ ri h.2, objGet_objSet_other _ _ _ _ (fun he => h.1 he.symm)]

/-- Writing one repository entry's PR list records that entry's destination
for every PR in the list. -/
theorem recordLocations_write (b : BranchKind) (key : String) :
    ∀ (prs : List PRId) (acc : List (String × PRDestination)) (ri : RepoInfo),
      key ∈ prs.map stringify_pr →
      objGet (prs.foldl (fun a pr => objSet a (stringify_pr pr) ⟨ri, b⟩) acc) key
        = some ⟨ri, b⟩ := by
  intro prs
  induction prs with
  | nil => intro acc ri h; simp at h
  | cons pr ps ih =>
    intro acc ri h
    simp only [List.foldl_cons]
    by_cases hps : key ∈ ps.map stringify_pr
    · exact ih _ ri hps
    · have hk : key = stringify_pr pr := by
        simp only [List.map_cons, List.mem_cons] at h
        exact h.resolve_right hps
      rw [recordLocations_other b key ps _ ri hps, hk, objGet_objSet_same]

/-- A fold of `recordLocations b` over entries none of which contains the key
leaves the key's resolution untouched. -/
theorem recordLocations_fold_other (b : BranchKind) (key : String) :
    ∀ (entries : List (String × List PRId)) (acc : List (String × PRDestination)),
      (∀ e ∈ entries, key ∉ e.2.map stringify_pr) →
      objGet (entries.foldl (recordLocations b) acc) key = objGet acc key := by
  intro entries
  induction entries with
  | nil => intro acc h; rfl
  | cons e es ih =>
    intro acc h
    simp only [List.foldl_cons]
    rw [ih _ (fun d hd => h d (List.mem_cons_of_mem e hd))]
    exact recordLocations_other b key e.2 acc (parse_repo_id e.1)
      (h e (List.mem_cons_self e es))

/-- A fold of `recordLocations b` over entries one of which contains the key
resolves the key to a destination with branch `b`, whatever was recorded
before. -/
theorem recordLocations_fold_write (b : BranchKind) (key : String) :
    ∀ (entries : List (String × List PRId)) (acc : List (String × PRDestination)),
      (∃ e ∈ entries, key ∈ e.2.map stringify_pr) →
      ∃ ri, objGet (entries.foldl (recordLocations b) acc) key = some ⟨ri, b⟩ := by
  intro entries
  induction entries with
  | nil => intro acc h; simp at h
  | cons e es ih =>
    intro acc h
    simp only [List.foldl_cons]
    by_cases hes : ∃ d ∈ es, key ∈ d.2.map stringify_pr
    · exact ih _ hes
    · have he : key ∈ e.2.map stringify_pr := by
        rcases h with ⟨d, hd, hkd⟩
        rcases List.mem_cons.mp hd with rfl | hmem
        · exact hkd
        · exact absurd ⟨d, hmem, hkd⟩ hes
      refine ⟨parse_repo_id e.1, ?_⟩
      rw [recordLocations_fold_other b key es _ (fun d hd hkd => hes ⟨d, hd, hkd⟩)]
      exact recordLocations_write b key e.2 acc (parse_repo_id e.1) he

/-- Counterexample to claim C4: with change `c4_id` recorded both in a
repository's integration-variant (dev) state and in a repository's
stable-variant (master) state, `pr_locations` resolves it to the
stable-variant target — the master pass runs second and overwrites the dev
entry — not to the integration-variant target the claim requires. -/
theorem pr_locations_resolve_to_master :
    (objGet (build_pr_locations c4_devPRs c4_masterPRs) (stringify_pr c4_id)).map
        (·.branch) = some BranchKind.master
    ∧ BranchKind.master ≠ BranchKind.dev := by
  decide

/-- Claim C4 as amended: when a referenced change is recorded in any
repository's stable-variant (master) state, the dependency edge resolves to a
stable-variant `ReleaseTarget` — stable-variant state takes precedence over
integration-variant state, because the `masterPRs` pass overwrites the
`devPRs` pass — and an edge whose resolved target is not a node of the
release-target graph is dropped (recorded as a warning) without touching the
graph or clearing the `success` flag, so it is never fatal. -/
theorem pr_locations_master_precedence_and_nonfatal_drop :
    (∀ (devPRs masterPRs : List (String × List PRId)) (key : String),
        (∃ e ∈ masterPRs, key ∈ e.2.map stringify_pr) →
        ∃ ri, objGet (build_pr_locations devPRs masterPRs) key
          = some ⟨ri, BranchKind.master⟩)
    ∧ (∀ (locations : List (String × PRDestination)) (fromKey : String)
        (st : EdgeLoopState) (dep : PRId) (depDest : PRDestination),
        objGet locations (stringify_pr dep) = some depDest →
        st.graph.hasNode (stringify_dest depDest) = false →
        add_dep_edge locations fromKey st dep
          = some ⟨st.graph, st.success, st.dropped ++ [stringify_dest depDest]⟩) := by
  constructor
  · intro devPRs masterPRs key h
    exact recordLocations_fold_write BranchKind.master key masterPRs _ h
  · intro locations fromKey st dep depDest hloc hnode
    simp [add_dep_edge, hloc, hnode]

/-- Witness for C4: the concrete two-repository scenario — the change is
resolved to the master variant, and a dependency resolving to a destination
absent from the graph is dropped non-fatally. -/
theorem pr_locations_master_precedence_and_nonfatal_drop_witness :
    (∃ ri, objGet (build_pr_locations c4_devPRs c4_masterPRs) (stringify_pr c4_id)
        = some ⟨ri, BranchKind.master⟩)
    ∧ add_dep_edge [(stringify_pr c4_id, ⟨⟨"GTNewHorizons", "RepoB"⟩, BranchKind.master⟩)]
        "GTNewHorizons/RepoA:master" ⟨⟨[], []⟩, true, []⟩ c4_id
        = some ⟨⟨[], []⟩, true,
            [] ++ [stringify_dest ⟨⟨"GTNewHorizons", "RepoB"⟩, BranchKind.master⟩]⟩ :=
  ⟨pr_locations_master_precedence_and_nonfatal_drop.1 c4_devPRs c4_masterPRs
      (stringify_pr c4_id) ⟨("GTNewHorizons/RepoB", [c4_id]), by decide, by decide⟩,
   pr_locations_master_precedence_and_nonfatal_drop.2
      [(stringify_pr c4_id, ⟨⟨"GTNewHorizons", "RepoB"⟩, BranchKind.master⟩)]
      "GTNewHorizons/RepoA:master" ⟨⟨[], []⟩, true, []⟩ c4_id
      ⟨⟨"GTNewHorizons", "RepoB"⟩, BranchKind.master⟩ (by decide) (by decide)⟩

/-- Claim C6: `get_merged_prs` does not return its changes in topological
order.  With merged PR `#2` (declaring `depends on: #1`) fetched before PR
`#1`, the returned order keeps `#2` first — before the change it depends on —
because `validPRs.sort(pr => order.indexOf(pr.permalink))` passes a
one-parameter callback as the comparator: the comparator ignores its second
argument and never returns a negative value, so the sort leaves the fetch
order unchanged.  (`get_prs` sorts the same data correctly via `_.sortBy`.) -/
theorem get_merged_prs_not_topologically_sorted :
    (get_merged_prs_core c6_repo [c6_q2, c6_q1] "master" [1, 2]).map
        (fun r => (r.prs.map (·.permalink), r.prs.map (·.dependencies)))
      = some (["https://github.com/GTNewHorizons/ExampleMod/pull/2",
               "https://github.com/GTNewHorizons/ExampleMod/pull/1"],
              [[⟨⟨"GTNewHorizons", "ExampleMod"⟩, 1⟩], []]) := by
  decide

/-! ## Parsing lemmas for C8 -/

theorem isEmpty_false_of_ne_nil {l : List Char} (h : l ≠ []) : l.isEmpty = false := by
  cases l with
  | nil => exact absurd rfl h
  | cons c cs => rfl

theorem stripLit_append : ∀ (ps rest : List Char), stripLit ps (ps ++ rest) = some rest := by
  intro ps
  induction ps with
  | nil => intro rest; rfl
  | cons c cs ih => intro rest; simp [stripLit, ih]

theorem takeWhile_append_stop {p : Char → Bool} :
    ∀ (l : List Char) (d : Char) (r : List Char),
      (∀ c ∈ l, p c = true) → p d = false →
      (l ++ d :: r).takeWhile p = l ∧ (l ++ d :: r).dropWhile p = d :: r := by
  intro l
  induction l with
  | nil => intro d r _ hd; simp [List.takeWhile_cons, List.dropWhile_cons, hd]
  | cons c cs ih =>
    intro d r hl hd
    have hc := hl c (List.mem_cons_self c cs)
    have hrec := ih d r (fun x hx => hl x (List.mem_cons_of_mem c hx)) hd
    simp [List.takeWhile_cons, List.dropWhile_cons, hc, hrec.1, hrec.2]

theorem takeWhile_all {p : Char → Bool} :
    ∀ (l : List Char), (∀ c ∈ l, p c = true) →
      l.takeWhile p = l ∧ l.dropWhile p = [] := by
  intro l
  induction l with
  | nil => intro _; exact ⟨rfl, rfl⟩
  | cons c cs ih =>
    intro hl
    have hc := hl c (List.mem_cons_self c cs)
    have hrec := ih (fun x hx => hl x (List.mem_cons_of_mem c hx))
    simp [List.takeWhile_cons, List.dropWhile_cons, hc, hrec.1, hrec.2]

theorem digitChar_facts (d : Nat) (h : d < 10) :
    jsIsDigit (Nat.digitChar d) = true ∧ (Nat.digitChar d).toNat = 48 + d := by
  interval_cases d <;> exact ⟨by decide, by decide⟩

theorem natToDigitsRevGo_spec :
    ∀ (fuel : Nat), ∀ n : Nat, n ≤ fuel →
      (∀ c ∈ natToDigitsRevGo fuel n, jsIsDigit c = true)
      ∧ digitsToNat (natToDigitsRevGo fuel n).reverse = n
      ∧ natToDigitsRevGo fuel n ≠ [] := by
  intro fuel
  induction fuel with
  | zero =>
    intro n hn
    have hn0 : n = 0 := by omega
    subst hn0
    refine ⟨?_, by decide, by decide⟩
    intro c hc
    simp only [natToDigitsRevGo, List.mem_singleton] at hc
    subst hc
    decide
  | succ fuel ih =>
    intro n hn
    by_cases h10 : n < 10
    · simp only [natToDigitsRevGo, h10, if_true]
      have hd := digitChar_facts n h10
      refine ⟨?_, ?_, by simp⟩
      · intro c hc
        simp only [List.mem_singleton] at hc
        subst hc
        exact hd.1
      · simp only [List.reverse_singleton, digitsToNat, List.foldl_cons,
          List.foldl_nil, hd.2]
        omega
    · simp only [natToDigitsRevGo, h10, if_false]
      have hdiv : n / 10 < n := Nat.div_lt_self (by omega) (by omega)
      have hrec := ih (n / 10) (by omega)
      have hd := digitChar_facts (n % 10) (Nat.mod_lt n (by omega))
      refine ⟨?_, ?_, by simp⟩
      · intro c hc
        rcases List.mem_cons.mp hc with rfl | hmem
        · exact hd.1
        · exact hrec.1 c hmem
      · simp only [List.reverse_cons, digitsToNat, List.foldl_append,
          List.foldl_cons, List.foldl_nil]
        have hv := hrec.2.1
        simp only [digitsToNat] at hv
        rw [hv, hd.2]
        omega

/-- The decimal rendering of `n` consists of digits, evaluates back to `n`
under `parseInt`, and is non-empty. -/
theorem natToString_spec (n : Nat) :
    (∀ c ∈ (natToString n).data, jsIsDigit c = true)
    ∧ digitsToNat (natToString n).data = n
    ∧ (natToString n).data ≠ [] := by
  have h := natToDigitsRevGo_spec n n (Nat.le_refl n)
  show (∀ c ∈ (natToDigitsRev n).reverse, jsIsDigit c = true)
    ∧ digitsToNat (natToDigitsRev n).reverse = n
    ∧ (natToDigitsRev n).reverse ≠ []
  refine ⟨?_, h.2.1, by simpa using h.2.2⟩
  intro c hc
  exact h.1 c (List.mem_reverse.mp hc)

/-- Claim C8 as amended: parsing inverts stringification for every
`ChangeRequestId` whose owner and repository name are non-empty and drawn
from the characters the `PR_URL` regular expression admits (letters, digits,
underscore, hyphen); a name outside that class (for example one containing a
dot) stringifies to a URL the parser rejects. -/
theorem parse_pr_inverts_stringify
    (own rep : String) (n : Nat)
    (hoe : own.data ≠ []) (ho : ∀ c ∈ own.data, jsWordDash c = true)
    (hre : rep.data ≠ []) (hr : ∀ c ∈ rep.data, jsWordDash c = true) :
    parse_pr (stringify_pr ⟨⟨own, rep⟩, n⟩) = some ⟨⟨own, rep⟩, n⟩ := by
  have hns := natToString_spec n
  have h1 : ("/" : String).data = ['/'] := rfl
  have h2 : ("/pull/" : String).data = ['/', 'p', 'u', 'l', 'l', '/'] := rfl
  have hdata : (stringify_pr ⟨⟨own, rep⟩, n⟩).data
      = "https://github.com/".data
        ++ (own.data ++ '/' :: (rep.data
            ++ ('/' :: 'p' :: 'u' :: 'l' :: 'l' :: '/' :: (natToString n).data))) := by
    show ("https://github.com/" ++ own ++ "/" ++ rep ++ "/pull/"
        ++ natToString n).data = _
    simp [String.data_append, h1, h2]
  have hown := takeWhile_append_stop (p := jsWordDash) own.data '/'
    (rep.data ++ ('/' :: 'p' :: 'u' :: 'l' :: 'l' :: '/' :: (natToString n).data))
    ho (by decide)
  have hrep := takeWhile_append_stop (p := jsWordDash) rep.data '/'
    ('p' :: 'u' :: 'l' :: 'l' :: '/' :: (natToString n).data) hr (by decide)
  have hds := takeWhile_all (p := jsIsDigit) (natToString n).data hns.1
  have hps : ('/' :: 'p' :: 'u' :: 'l' :: 'l' :: '/' :: (natToString n).data)
      = "/pull/".data ++ (natToString n).data := rfl
  have hurl : parsePrUrl (stringify_pr ⟨⟨own, rep⟩, n⟩).data
      = some ⟨⟨own, rep⟩, n⟩ := by
    rw [hdata]
    simp only [parsePrUrl, stripLit_append]
    simp only [hown.1, hown.2, isEmpty_false_of_ne_nil hoe, Bool.false_eq_true,
      if_false]
    simp only [hrep.1, hrep.2, isEmpty_false_of_ne_nil hre, Bool.false_eq_true,
      if_false]
    simp only [hps, stripLit_append]
    simp only [hds.1, hds.2, isEmpty_false_of_ne_nil hns.2.2, Bool.false_eq_true,
      if_false, List.isEmpty_nil, if_true]
    show some (PRId.mk (RepoInfo.mk own.data.asString rep.data.asString)
        (digitsToNat (natToString n).data))
      = some (PRId.mk (RepoInfo.mk own rep) n)
    rw [hns.2.1]
    rfl
  simp only [parse_pr, hurl]

/-- Counterexample to claim C8: the round trip does not hold for every
owner/repo pair — a repository name containing a dot stringifies to a URL
that `parse_pr` rejects, so parsing does not recover the identifier. -/
theorem parse_pr_roundtrip_fails_on_dotted_repo :
    parse_pr (stringify_pr ⟨⟨"GTNewHorizons", "a.b"⟩, 1⟩)
      ≠ some ⟨⟨"GTNewHorizons", "a.b"⟩, 1⟩ := by
  decide

/-- Witness for C8: the round trip at a concrete well-formed identifier. -/
theorem parse_pr_inverts_stringify_witness :
    parse_pr (stringify_pr ⟨⟨"GTNewHorizons", "Example-Mod_2"⟩, 123⟩)
      = some ⟨⟨"GTNewHorizons", "Example-Mod_2"⟩, 123⟩ :=
  parse_pr_inverts_stringify "GTNewHorizons" "Example-Mod_2" 123
    (by decide) (by decide) (by decide) (by decide)

end MMXXL
